import Mathlib

/-!
Verification of the TwitterScrap harvesting core.

Shallow embedding of the repository:
  * `src/processing/deduplicator.py` — `deduplicate`
  * `src/scraper/twitter_scraper.py` — `_is_logged_in`, `scrape_tweets`, `close`
  * `src/main.py` — the top-level call that runs the scrape and closes the driver

External effects (Selenium driver calls, wall-clock, logging) are modelled
by an explicit environment value read by the embedded control flow.
-/

/-- A harvested record, as built by `scrape_tweets`:
`{"username": "unknown", "content": text, "timestamp": time.time()}`.
The wall clock is modelled as a `Nat` counter. -/
structure Post where
  username : String
  content : String
  timestamp : Nat
deriving DecidableEq, Repr

/-! ## Deduplicator (src/processing/deduplicator.py)

```python
seen = set()
unique_items = []
for tweet in tweets_list:
    content = tweet["content"]
    if content not in seen:
        seen.add(content)
        unique_items.append(tweet)
return unique_items
```
The `seen` set is modelled as a list of strings with membership testing. -/

def dedupGo (seen : List String) : List Post → List Post
  | [] => []
  | t :: ts =>
    if t.content ∈ seen then dedupGo seen ts
    else t :: dedupGo (t.content :: seen) ts

def deduplicate (tweets_list : List Post) : List Post :=
  dedupGo [] tweets_list

/-! ## Whitespace stripping (`card.text.strip()` in the scraper)

Python `str.strip()` removes leading and trailing whitespace. -/

def isSpaceChar (c : Char) : Bool :=
  c = ' ' || c = '\t' || c = '\n' || c = '\r' || c = '\x0b' || c = '\x0c'

/-- Remove trailing whitespace characters. -/
def rstripList : List Char → List Char
  | [] => []
  | a :: t =>
    let r := rstripList t
    if r.isEmpty && isSpaceChar a then [] else a :: r

/-- Model of Python `str.strip()`: drop leading whitespace, then trailing. -/
def strip (s : String) : String :=
  ⟨rstripList (s.data.dropWhile isSpaceChar)⟩

/-! ### Lemmas about `dedupGo` -/

theorem dedupGo_sublist (seen : List String) (l : List Post) :
    (dedupGo seen l).Sublist l := by
  induction l generalizing seen with
  | nil => simp [dedupGo]
  | cons t ts ih =>
    simp only [dedupGo]
    split
    · exact (ih seen).cons t
    · exact (ih (t.content :: seen)).cons₂ t

/-- Membership in the deduplicated list characterised: a post is kept iff it
occurs at a position whose content is unseen and not matched earlier. -/
theorem mem_dedupGo (seen : List String) (l : List Post) (p : Post) :
    p ∈ dedupGo seen l ↔
      ∃ pre suf, l = pre ++ p :: suf ∧ p.content ∉ seen ∧
        ∀ q ∈ pre, q.content ≠ p.content := by
  induction l generalizing seen with
  | nil =>
    simp only [dedupGo, List.not_mem_nil, false_iff]
    rintro ⟨pre, suf, h, -, -⟩
    exact (List.append_ne_nil_of_right_ne_nil pre (List.cons_ne_nil p suf)) h.symm
  | cons t ts ih =>
    simp only [dedupGo]
    split
    · rename_i hseen
      rw [ih seen]
      constructor
      · rintro ⟨pre, suf, rfl, hns, hpre⟩
        refine ⟨t :: pre, suf, rfl, hns, ?_⟩
        intro q hq
        rcases List.mem_cons.mp hq with rfl | hq
        · intro hc; exact hns (hc ▸ hseen)
        · exact hpre q hq
      · rintro ⟨pre, suf, heq, hns, hpre⟩
        cases pre with
        | nil =>
          simp only [List.nil_append, List.cons.injEq] at heq
          exact absurd (heq.1 ▸ hseen) hns
        | cons a pre =>
          simp only [List.cons_append, List.cons.injEq] at heq
          refine ⟨pre, suf, heq.2, hns, fun q hq => hpre q (List.mem_cons_of_mem a hq)⟩
    · rename_i hseen
      constructor
      · intro hmem
        rcases List.mem_cons.mp hmem with rfl | hmem
        · exact ⟨[], ts, rfl, hseen, by simp⟩
        · rcases (ih (t.content :: seen)).mp hmem with ⟨pre, suf, rfl, hns, hpre⟩
          refine ⟨t :: pre, suf, rfl, fun h => hns (List.mem_cons_of_mem _ h), ?_⟩
          intro q hq
          rcases List.mem_cons.mp hq with rfl | hq
          · intro hc; exact hns (hc ▸ List.mem_cons_self _ _)
          · exact hpre q hq
      · rintro ⟨pre, suf, heq, hns, hpre⟩
        cases pre with
        | nil =>
          simp only [List.nil_append, List.cons.injEq] at heq
          exact heq.1 ▸ List.mem_cons_self _ _
        | cons a pre =>
          simp only [List.cons_append, List.cons.injEq] at heq
          refine List.mem_cons_of_mem t ((ih (t.content :: seen)).mpr ?_)
          refine ⟨pre, suf, heq.2, ?_, fun q hq => hpre q (List.mem_cons_of_mem a hq)⟩
          intro hc
          rcases List.mem_cons.mp hc with hc | hc
          · exact hpre a (List.mem_cons_self a pre) (heq.1 ▸ hc.symm)
          · exact hns hc

theorem dedupGo_content_nodup (seen : List String) (l : List Post) :
    ((dedupGo seen l).map Post.content).Nodup ∧
      ∀ c ∈ (dedupGo seen l).map Post.content, c ∉ seen := by
  induction l generalizing seen with
  | nil => simp [dedupGo]
  | cons t ts ih =>
    simp only [dedupGo]
    split
    · exact ih seen
    · rename_i hseen
      obtain ⟨hnd, hdisj⟩ := ih (t.content :: seen)
      simp only [List.map_cons, List.nodup_cons]
      refine ⟨⟨?_, hnd⟩, ?_⟩
      · intro hc
        exact (hdisj _ hc) (List.mem_cons_self _ _)
      · intro c hc
        rcases List.mem_cons.mp hc with rfl | hc
        · exact hseen
        · exact fun h => hdisj c hc (List.mem_cons_of_mem _ h)

theorem dedupGo_dedupGo (seen : List String) (l : List Post) :
    dedupGo seen (dedupGo seen l) = dedupGo seen l := by
  induction l generalizing seen with
  | nil => simp [dedupGo]
  | cons t ts ih =>
    simp only [dedupGo]
    split
    · exact ih seen
    · rename_i hseen
      simp only [dedupGo, if_neg hseen]
      rw [ih (t.content :: seen)]

/-! ## Login probe (`TwitterScraper._is_logged_in`)

```python
try:
    self.driver.get("https://twitter.com/home")
    time.sleep(2)
    return "Log in to X" not in self.driver.title and "Sign up to X" not in self.driver.title
except Exception:
    return False
```
The navigate-and-read-title interaction is modelled as `Option String`:
`none` is a driver fault (any exception), `some title` the observed title. -/

def startsWithB : List Char → List Char → Bool
  | [], _ => true
  | _ :: _, [] => false
  | a :: as, b :: bs => a = b && startsWithB as bs

/-- Python `pat in s` substring containment. -/
def hasSubstr (pat : List Char) : List Char → Bool
  | [] => (startsWithB pat [] : Bool)
  | b :: bs => startsWithB pat (b :: bs) || hasSubstr pat bs

def containsText (s pat : String) : Bool :=
  hasSubstr pat.data s.data

def is_logged_in (probe : Option String) : Bool :=
  match probe with
  | none => false
  | some title =>
    !(containsText title "Log in to X") && !(containsText title "Sign up to X")

/-! ## Card extraction (the per-card body inside `scrape_tweets`)

```python
for card in cards:
    try:
        text = card.text.strip()
        if not text:
            continue
        tweets.append({"username": "unknown", "content": text, "timestamp": time.time()})
    except Exception:
        continue
```
A raw page element is `Option String`: `none` means reading `card.text`
raises, `some s` means the visible text is `s`. -/

def extractCard (card : Option String) : Option String :=
  match card with
  | none => none
  | some s =>
    let t := strip s
    if t = "" then none else some t

/-- One round of the per-card loop: admitted posts plus the advanced clock. -/
def extractRound : List (Option String) → Nat → List Post × Nat
  | [], clock => ([], clock)
  | card :: rest, clock =>
    match extractCard card with
    | none => extractRound rest clock
    | some t =>
      let r := extractRound rest (clock + 1)
      (⟨"unknown", t, clock⟩ :: r.1, r.2)

/-! ## Per-query pagination loop (`scrape_tweets` body)

The driver interactions of one query are an environment record:
`cards1 k` is what `find_elements` returns at round `k`, `cards2 k` the
retry result used when `cards1 k` is empty, `height0` the scroll height
measured before the loop and `heights k` the height measured after the
scroll of round `k`. `navFault` models `driver.get(url)` raising. -/

structure QueryEnv where
  navFault : Bool
  cards1 : Nat → List (Option String)
  cards2 : Nat → List (Option String)
  height0 : Nat
  heights : Nat → Nat

/-- Per-query terminal condition of the `while` loop. `fuelOut` is an
artifact of the fuel-bounded model with no Python counterpart. -/
inductive QStatus where
  | converged
  | aborted
  | capped
  | fuelOut
deriving DecidableEq, Repr

/-- The `find_elements` call of round `k` together with the one retry
performed when the first result is empty (`if not cards: ... cards = ...`). -/
def effectiveCards (q : QueryEnv) (k : Nat) : List (Option String) :=
  if (q.cards1 k).isEmpty then q.cards2 k else q.cards1 k

/-- The `while len(tweets) < max_tweets` loop of one query.
Returns the aggregate posts, the clock, the number of extraction rounds
performed, and how the loop ended. -/
def queryLoop (q : QueryEnv) (cap : Nat) :
    Nat → List Post → Nat → Nat → Nat → List Post × Nat × Nat × QStatus
  | 0, tweets, clock, _, k => (tweets, clock, k, .fuelOut)
  | fuel + 1, tweets, clock, lastH, k =>
    if tweets.length < cap then
      let cards := effectiveCards q k
      if cards.isEmpty then
        (tweets, clock, k, .aborted)
      else
        let r := extractRound cards clock
        let tweets2 := tweets ++ r.1
        let newH := q.heights k
        if newH = lastH then
          (tweets2, r.2, k + 1, .converged)
        else
          queryLoop q cap fuel tweets2 r.2 newH (k + 1)
    else (tweets, clock, k, .capped)

/-! ## The harvest entry point (`scrape_tweets`) and the `main.py` wrapper -/

structure ScrapeEnv where
  probe1 : Option String
  probe2 : Option String
  queries : List QueryEnv

inductive ScrapeErr where
  | loginRequired
  | loginFailed
  | driverFault
deriving DecidableEq, Repr

inductive Outcome where
  | ok (posts : List Post)
  | err (e : ScrapeErr)
  | outOfFuel
deriving DecidableEq, Repr

structure RunResult where
  outcome : Outcome
  /-- For each query whose `while` loop finished: its round count and status. -/
  statuses : List (Nat × QStatus)
  /-- Number of `driver.get(search-url)` navigations attempted. -/
  navs : Nat
  /-- Whether `self.driver.quit()` has run when control reaches the caller. -/
  closed : Bool
deriving DecidableEq, Repr

/-- The `for tag in HASHTAGS` loop. On the empty-retry break and on
convergence the next query is still processed; once the cap is reached the
remaining queries are still navigated to but their loops end immediately. -/
def runQueries (cap fuel : Nat) :
    List QueryEnv → List Post → Nat → List (Nat × QStatus) → Nat → RunResult
  | [], tweets, _, statuses, navs => ⟨.ok tweets, statuses, navs, false⟩
  | q :: rest, tweets, clock, statuses, navs =>
    if q.navFault then
      ⟨.err .driverFault, statuses, navs + 1, false⟩
    else
      let r := queryLoop q cap fuel tweets clock q.height0 0
      match r.2.2.2 with
      | .fuelOut => ⟨.outOfFuel, statuses ++ [(r.2.2.1, QStatus.fuelOut)], navs + 1, false⟩
      | st => runQueries cap fuel rest r.1 r.2.1 (statuses ++ [(r.2.2.1, st)]) (navs + 1)

/-- `TwitterScraper.scrape_tweets(max_tweets)`. The login check runs first;
in headless mode a failed check closes the driver and raises; in visible
mode the user is prompted and the probe re-run once. -/
def scrape_tweets (headless : Bool) (env : ScrapeEnv) (max_tweets fuel : Nat) : RunResult :=
  if is_logged_in env.probe1 then
    runQueries max_tweets fuel env.queries [] 0 [] 0
  else if headless then
    ⟨.err .loginRequired, [], 0, true⟩
  else if is_logged_in env.probe2 then
    runQueries max_tweets fuel env.queries [] 0 [] 0
  else
    ⟨.err .loginFailed, [], 0, true⟩

/-- The harvester's top-level call as driven by `main.py`:
`raw_tweets = scraper.scrape_tweets(...); scraper.close()` — the caller-side
`close()` runs only when `scrape_tweets` returns normally. -/
def mainHarvest (headless : Bool) (env : ScrapeEnv) (max_tweets fuel : Nat) : RunResult :=
  let r := scrape_tweets headless env max_tweets fuel
  match r.outcome with
  | .ok _ => { r with closed := true }
  | _ => r

/-! ### Lemmas about stripping and extraction -/

theorem dropWhile_idem (p : Char → Bool) (l : List Char) :
    (l.dropWhile p).dropWhile p = l.dropWhile p := by
  induction l with
  | nil => simp
  | cons a t ih =>
    by_cases h : p a
    · simp [List.dropWhile_cons, h, ih]
    · simp [List.dropWhile_cons, h]

theorem head_dropWhile_false (p : Char → Bool) (l : List Char) (a : Char) (t : List Char)
    (h : l.dropWhile p = a :: t) : p a = false := by
  induction l with
  | nil => simp at h
  | cons b bs ih =>
    rw [List.dropWhile_cons] at h
    by_cases hb : p b
    · exact ih (by simpa [hb] using h)
    · simp only [hb, if_neg] at h
      simp only [Bool.not_eq_true] at hb
      cases h
      simpa using hb

theorem rstripList_idem (l : List Char) : rstripList (rstripList l) = rstripList l := by
  induction l with
  | nil => simp [rstripList]
  | cons a t ih =>
    simp only [rstripList]
    by_cases h : (rstripList t).isEmpty && isSpaceChar a
    · simp [h, rstripList]
    · simp only [if_neg h, rstripList, ih, if_neg h]

theorem rstripList_cases (a : Char) (t : List Char) :
    rstripList (a :: t) = [] ∨ ∃ r, rstripList (a :: t) = a :: r := by
  simp only [rstripList]
  by_cases h : (rstripList t).isEmpty && isSpaceChar a
  · simp [h]
  · exact Or.inr ⟨rstripList t, by simp [h]⟩

theorem strip_idem (s : String) : strip (strip s) = strip s := by
  unfold strip
  have hdata : (String.mk (rstripList (s.data.dropWhile isSpaceChar))).data
      = rstripList (s.data.dropWhile isSpaceChar) := rfl
  rw [hdata]
  have hfix : (rstripList (s.data.dropWhile isSpaceChar)).dropWhile isSpaceChar
      = rstripList (s.data.dropWhile isSpaceChar) := by
    cases hm : s.data.dropWhile isSpaceChar with
    | nil => simp [rstripList]
    | cons a t =>
      have ha : isSpaceChar a = false := head_dropWhile_false isSpaceChar s.data a t hm
      rcases rstripList_cases a t with h0 | ⟨r, hr⟩
      · simp [h0]
      · rw [hr, List.dropWhile_cons, ha]
        simp
  rw [hfix, rstripList_idem]

theorem extractCard_some (card : Option String) (t : String)
    (h : extractCard card = some t) : t ≠ "" ∧ strip t = t := by
  cases card with
  | none => simp [extractCard] at h
  | some s =>
    simp only [extractCard] at h
    by_cases he : strip s = ""
    · simp [he] at h
    · rw [if_neg he] at h
      injection h with h
      subst h
      exact ⟨he, strip_idem s⟩

theorem extractRound_inv (cards : List (Option String)) (clock : Nat) :
    ∀ p ∈ (extractRound cards clock).1, p.content ≠ "" ∧ strip p.content = p.content := by
  induction cards generalizing clock with
  | nil => simp [extractRound]
  | cons card rest ih =>
    intro p hp
    simp only [extractRound] at hp
    cases hc : extractCard card with
    | none =>
      rw [hc] at hp
      exact ih clock p hp
    | some t =>
      rw [hc] at hp
      rcases List.mem_cons.mp hp with rfl | hp
      · exact extractCard_some card t hc
      · exact ih (clock + 1) p hp

theorem extractRound_append (xs ys : List (Option String)) (clock : Nat) :
    extractRound (xs ++ ys) clock
      = ((extractRound xs clock).1 ++ (extractRound ys (extractRound xs clock).2).1,
         (extractRound ys (extractRound xs clock).2).2) := by
  induction xs generalizing clock with
  | nil => simp [extractRound]
  | cons card rest ih =>
    simp only [List.cons_append, extractRound]
    cases hc : extractCard card with
    | none => exact ih clock
    | some t => simp [ih (clock + 1)]

theorem extractRound_length_all_good (cards : List (Option String)) (clock : Nat)
    (h : ∀ c ∈ cards, ∃ s, c = some s ∧ strip s ≠ "") :
    (extractRound cards clock).1.length = cards.length := by
  induction cards generalizing clock with
  | nil => simp [extractRound]
  | cons card rest ih =>
    obtain ⟨s, rfl, hs⟩ := h card (List.mem_cons_self _ _)
    simp only [extractRound, extractCard, if_neg hs]
    simp only [List.length_cons]
    rw [ih (clock + 1) (fun c hc => h c (List.mem_cons_of_mem _ hc))]

theorem queryLoop_inv (q : QueryEnv) (cap : Nat) :
    ∀ fuel tweets clock lastH k, (∀ p ∈ tweets, p.content ≠ "" ∧ strip p.content = p.content) →
      ∀ p ∈ (queryLoop q cap fuel tweets clock lastH k).1,
        p.content ≠ "" ∧ strip p.content = p.content := by
  intro fuel
  induction fuel with
  | zero =>
    intro tweets clock lastH k h
    simpa [queryLoop] using h
  | succ fuel ih =>
    intro tweets clock lastH k h p hp
    simp only [queryLoop] at hp
    split at hp
    · split at hp
      · exact h p hp
      · split at hp
        · rcases List.mem_append.mp hp with hp | hp
          · exact h p hp
          · exact extractRound_inv _ _ p hp
        · refine ih _ _ _ _ ?_ p hp
          intro p' hp'
          rcases List.mem_append.mp hp' with h1 | h1
          · exact h p' h1
          · exact extractRound_inv _ _ p' h1
    · exact h p hp

theorem runQueries_inv (cap fuel : Nat) :
    ∀ qs tweets clock statuses navs posts,
      (∀ p ∈ tweets, p.content ≠ "" ∧ strip p.content = p.content) →
      (runQueries cap fuel qs tweets clock statuses navs).outcome = .ok posts →
      ∀ p ∈ posts, p.content ≠ "" ∧ strip p.content = p.content := by
  intro qs
  induction qs with
  | nil =>
    intro tweets clock statuses navs posts h hok
    simp only [runQueries] at hok
    injection hok with hok
    exact hok ▸ h
  | cons q rest ih =>
    intro tweets clock statuses navs posts h hok
    simp only [runQueries] at hok
    split at hok
    · simp at hok
    · split at hok
      · simp at hok
      · exact ih _ _ _ _ posts (queryLoop_inv q cap fuel tweets clock q.height0 0 h) hok

theorem runQueries_err (cap fuel : Nat) :
    ∀ qs tweets clock statuses navs e,
      (runQueries cap fuel qs tweets clock statuses navs).outcome = Outcome.err e →
      e = ScrapeErr.driverFault := by
  intro qs
  induction qs with
  | nil =>
    intro tweets clock statuses navs e h
    simp [runQueries] at h
  | cons q rest ih =>
    intro tweets clock statuses navs e h
    simp only [runQueries] at h
    split at h
    · injection h with h
      exact h.symm
    · split at h
      · simp at h
      · exact ih _ _ _ _ e h

/-! ## Concrete environments used as witnesses and counterexamples -/

/-- A query page that immediately converges after one round of three
elements: one good card, one card whose read raises, one whitespace card. -/
def qMixed : QueryEnv :=
  { navFault := false
    cards1 := fun _ => [some " hello ", none, some "   "]
    cards2 := fun _ => []
    height0 := 100
    heights := fun _ => 100 }

def envMixed : ScrapeEnv :=
  { probe1 := some "Home / X", probe2 := none, queries := [qMixed] }

/-- One round surfaces 20 cards at once; the page then converges. -/
def qBigBatch : QueryEnv :=
  { navFault := false
    cards1 := fun _ => List.replicate 20 (some "pump signal")
    cards2 := fun _ => []
    height0 := 100
    heights := fun _ => 100 }

def envBigBatch : ScrapeEnv :=
  { probe1 := some "Home / X", probe2 := none, queries := [qBigBatch, qMixed] }

/-- `driver.get` raises on the first query navigation. -/
def qNavFault : QueryEnv :=
  { navFault := true
    cards1 := fun _ => []
    cards2 := fun _ => []
    height0 := 0
    heights := fun _ => 0 }

def envNavFault : ScrapeEnv :=
  { probe1 := some "Home / X", probe2 := none, queries := [qNavFault] }

/-- A query page that never yields any element, on the find nor the retry. -/
def qEmpty : QueryEnv :=
  { navFault := false
    cards1 := fun _ => []
    cards2 := fun _ => []
    height0 := 100
    heights := fun _ => 100 }

/-- A query page empty on the first find whose single retry succeeds. -/
def qRetry : QueryEnv :=
  { navFault := false
    cards1 := fun _ => []
    cards2 := fun _ => [some "recovered tip"]
    height0 := 100
    heights := fun _ => 100 }

def envAbortThenNext : ScrapeEnv :=
  { probe1 := some "Home / X", probe2 := none, queries := [qEmpty, qRetry] }

/-- PageExtent measurements 100, 250, 250: initial height 100, then 250
after each of the first two scrolls. -/
def qConv : QueryEnv :=
  { navFault := false
    cards1 := fun _ => [some "tip one", some "tip two"]
    cards2 := fun _ => []
    height0 := 100
    heights := fun _ => 250 }

/-! ## Claims -/

/-- C3: `deduplicate` keeps exactly the first occurrence of each distinct
content value, in input order: the result is a sublist of the input (so
relative order of kept posts is preserved), its contents are pairwise
distinct, and a post is kept iff it occurs at a position preceded by no
post of the same content; in particular, aggregating two queries that each
surface a post with content "buy nifty now" and deduplicating keeps exactly
the one collected first. -/
theorem c3_dedupe_first_occurrence_order :
    (∀ P : List Post,
      (deduplicate P).Sublist P ∧
      ((deduplicate P).map Post.content).Nodup ∧
      (∀ p : Post, p ∈ deduplicate P ↔
        ∃ pre suf, P = pre ++ p :: suf ∧ ∀ q ∈ pre, q.content ≠ p.content)) ∧
    deduplicate
        [⟨"unknown", "buy nifty now", 0⟩, ⟨"unknown", "other tip", 1⟩,
          ⟨"unknown", "buy nifty now", 2⟩]
      = [⟨"unknown", "buy nifty now", 0⟩, ⟨"unknown", "other tip", 1⟩] := by
  constructor
  · intro P
    refine ⟨dedupGo_sublist [] P, (dedupGo_content_nodup [] P).1, ?_⟩
    intro p
    rw [deduplicate, mem_dedupGo]
    simp
  · decide

/-- C9: `deduplicate` is idempotent. -/
theorem c9_dedupe_idempotent (P : List Post) :
    deduplicate (deduplicate P) = deduplicate P :=
  dedupGo_dedupGo [] P

/-- C6: in one extraction round, a fault while reading a single element is
converted into a skip: a batch of N elements in which exactly one read
raises and every other element carries nonblank text yields exactly N − 1
posts, and the round is a total function (nothing propagates). -/
theorem c6_single_fault_skipped (pre suf : List (Option String)) (clock : Nat)
    (hpre : ∀ c ∈ pre, ∃ s, c = some s ∧ strip s ≠ "")
    (hsuf : ∀ c ∈ suf, ∃ s, c = some s ∧ strip s ≠ "") :
    (extractRound (pre ++ none :: suf) clock).1.length
      = (pre ++ none :: suf).length - 1 := by
  rw [extractRound_append]
  simp only [List.length_append, List.length_cons]
  have h1 := extractRound_length_all_good pre clock hpre
  have h2 : extractRound (none :: suf) (extractRound pre clock).2
      = extractRound suf (extractRound pre clock).2 := by
    simp [extractRound, extractCard]
  rw [h2, h1, extractRound_length_all_good suf _ hsuf]
  omega

theorem c6_witness :
    (extractRound ([some "good tweet"] ++ none :: [some "another"]) 0).1.length
      = ([some "good tweet"] ++ none :: [some "another"]).length - 1 :=
  c6_single_fault_skipped [some "good tweet"] [some "another"] 0
    (by
      intro c hc
      simp only [List.mem_singleton] at hc
      exact ⟨"good tweet", hc, by decide⟩)
    (by
      intro c hc
      simp only [List.mem_singleton] at hc
      exact ⟨"another", hc, by decide⟩)

/-- C7: every post admitted to the harvester's output sequence has
non-empty content equal to its whitespace-trimmed form. -/
theorem c7_content_trimmed_nonempty (headless : Bool) (env : ScrapeEnv)
    (max_tweets fuel : Nat) (posts : List Post)
    (hok : (scrape_tweets headless env max_tweets fuel).outcome = Outcome.ok posts) :
    ∀ p ∈ posts, p.content ≠ "" ∧ strip p.content = p.content := by
  unfold scrape_tweets at hok
  split at hok
  · exact runQueries_inv _ _ _ _ _ _ _ _ (by simp) hok
  · split at hok
    · simp at hok
    · split at hok
      · exact runQueries_inv _ _ _ _ _ _ _ _ (by simp) hok
      · simp at hok

theorem c7_witness :
    (⟨"unknown", "hello", 0⟩ : Post).content ≠ "" ∧
      strip (⟨"unknown", "hello", 0⟩ : Post).content
        = (⟨"unknown", "hello", 0⟩ : Post).content :=
  c7_content_trimmed_nonempty true envMixed 200 5 [⟨"unknown", "hello", 0⟩] (by decide)
    ⟨"unknown", "hello", 0⟩ (by decide)

/-- C4: with headless mode on and the login probe reporting logged-out, the
harvest entry point raises the login-required error with the driver closed,
before any navigation to a query page (zero query navigations, no query
loop run) and with no posts collected. -/
theorem c4_headless_auth_abort (env : ScrapeEnv) (max_tweets fuel : Nat)
    (hprobe : is_logged_in env.probe1 = false) :
    scrape_tweets true env max_tweets fuel
      = ⟨Outcome.err ScrapeErr.loginRequired, [], 0, true⟩ := by
  unfold scrape_tweets
  simp [hprobe]

theorem c4_witness :
    scrape_tweets true ⟨some "Log in to X / X", none, [qMixed]⟩ 5 5
      = ⟨Outcome.err ScrapeErr.loginRequired, [], 0, true⟩ :=
  c4_headless_auth_abort ⟨some "Log in to X / X", none, [qMixed]⟩ 5 5 (by decide)

/-- C10: a fault while navigating to the home view or reading the title is
absorbed by the probe, which reports logged-out instead of propagating; in
headless mode the run therefore fails with the login-required error, not
with a driver error. -/
theorem c10_probe_fault_reports_logged_out (env : ScrapeEnv) (max_tweets fuel : Nat)
    (hfault : env.probe1 = none) :
    is_logged_in env.probe1 = false ∧
      scrape_tweets true env max_tweets fuel
        = ⟨Outcome.err ScrapeErr.loginRequired, [], 0, true⟩ := by
  refine ⟨by rw [hfault]; rfl, ?_⟩
  unfold scrape_tweets
  rw [hfault]
  simp [is_logged_in]

theorem c10_witness :
    is_logged_in (ScrapeEnv.mk none none [qMixed]).probe1 = false ∧
      scrape_tweets true ⟨none, none, [qMixed]⟩ 5 5
        = ⟨Outcome.err ScrapeErr.loginRequired, [], 0, true⟩ :=
  c10_probe_fault_reports_logged_out ⟨none, none, [qMixed]⟩ 5 5 rfl

/-- C5: whenever an iteration of the query loop runs (cap not reached,
elements present) and the re-measured page extent equals the prior round's
measurement, the loop ends at that round in the converged state; with
measurements 100, 250, 250 the loop performs exactly two extraction rounds
and converges. -/
theorem c5_convergence_on_repeat (q : QueryEnv) (cap fuel : Nat)
    (tweets : List Post) (clock lastH k : Nat)
    (hcap : tweets.length < cap)
    (hcards : (effectiveCards q k).isEmpty = false)
    (hrep : q.heights k = lastH) :
    queryLoop q cap (fuel + 1) tweets clock lastH k
        = (tweets ++ (extractRound (effectiveCards q k) clock).1,
           (extractRound (effectiveCards q k) clock).2, k + 1, QStatus.converged) ∧
      (queryLoop qConv 200 10 [] 0 100 0).2.2 = (2, QStatus.converged) := by
  constructor
  · simp [queryLoop, hcap, hcards, hrep]
  · decide

theorem c5_witness :
    (queryLoop qConv 200 (3 + 1) [] 0 250 1
        = ([] ++ (extractRound (effectiveCards qConv 1) 0).1,
           (extractRound (effectiveCards qConv 1) 0).2, 1 + 1, QStatus.converged) ∧
      (queryLoop qConv 200 10 [] 0 100 0).2.2 = (2, QStatus.converged)) :=
  c5_convergence_on_repeat qConv 200 3 [] 0 250 1 (by decide) (by decide) (by decide)

/-- C8: a query whose page yields no element on the bounded find nor on the
single retry is abandoned at that round in the aborted state without adding
posts and without raising; the harvester then proceeds to the next query in
order, as the concrete two-query run shows (first query aborted, second
query still harvested, run completes normally). -/
theorem c8_empty_query_aborts_run_continues (q : QueryEnv) (cap fuel : Nat)
    (tweets : List Post) (clock lastH k : Nat)
    (hcap : tweets.length < cap)
    (h1 : q.cards1 k = []) (h2 : q.cards2 k = []) :
    queryLoop q cap (fuel + 1) tweets clock lastH k
        = (tweets, clock, k, QStatus.aborted) ∧
      scrape_tweets true envAbortThenNext 200 5
        = ⟨Outcome.ok [⟨"unknown", "recovered tip", 0⟩],
            [(0, QStatus.aborted), (1, QStatus.converged)], 2, false⟩ := by
  constructor
  · have hcards : (effectiveCards q k).isEmpty = true := by
      simp [effectiveCards, h1, h2]
    simp [queryLoop, hcap, hcards]
  · decide

theorem c8_witness :
    (queryLoop qEmpty 200 (4 + 1) [] 7 100 0 = ([], 7, 0, QStatus.aborted) ∧
      scrape_tweets true envAbortThenNext 200 5
        = ⟨Outcome.ok [⟨"unknown", "recovered tip", 0⟩],
            [(0, QStatus.aborted), (1, QStatus.converged)], 2, false⟩) :=
  c8_empty_query_aborts_run_continues qEmpty 200 4 [] 7 100 0 (by decide) rfl rfl

theorem scrape_closed_unless_driverFault (headless : Bool) (env : ScrapeEnv)
    (max_tweets fuel : Nat) (e : ScrapeErr)
    (h : (scrape_tweets headless env max_tweets fuel).outcome = Outcome.err e)
    (hne : e ≠ ScrapeErr.driverFault) :
    (scrape_tweets headless env max_tweets fuel).closed = true := by
  unfold scrape_tweets at h ⊢
  by_cases h1 : is_logged_in env.probe1 = true
  · rw [if_pos h1] at h ⊢
    exact absurd (runQueries_err _ _ _ _ _ _ _ _ h) hne
  · rw [if_neg h1] at h ⊢
    by_cases h2 : headless = true
    · rw [if_pos h2] at h ⊢
    · rw [if_neg h2] at h ⊢
      by_cases h3 : is_logged_in env.probe2 = true
      · rw [if_pos h3] at h ⊢
        exact absurd (runQueries_err _ _ _ _ _ _ _ _ h) hne
      · rw [if_neg h3] at h ⊢

theorem mainHarvest_outcome (headless : Bool) (env : ScrapeEnv) (max_tweets fuel : Nat) :
    (mainHarvest headless env max_tweets fuel).outcome
      = (scrape_tweets headless env max_tweets fuel).outcome := by
  unfold mainHarvest
  cases hr : (scrape_tweets headless env max_tweets fuel).outcome <;> simp [hr]

theorem mainHarvest_closed_ok (headless : Bool) (env : ScrapeEnv)
    (max_tweets fuel : Nat) (posts : List Post)
    (h : (scrape_tweets headless env max_tweets fuel).outcome = Outcome.ok posts) :
    (mainHarvest headless env max_tweets fuel).closed = true := by
  unfold mainHarvest
  simp [h]

/-- C2 counterexample: the claim fails on an exit path the spec covers — a
driver fault raised while navigating to a query page reaches the caller
with the driver never released (`closed = false`). -/
theorem c2_counterexample :
    (mainHarvest true envNavFault 200 5).outcome = Outcome.err ScrapeErr.driverFault ∧
      (mainHarvest true envNavFault 200 5).closed = false := by
  decide

/-- C2 (amended): the driver is released on normal completion and on both
fatal authentication exit paths, but not when an uncaught driver fault
escapes the query loop. -/
theorem c2_release_on_nonfault_paths (headless : Bool) (env : ScrapeEnv)
    (max_tweets fuel : Nat) :
    (∀ posts, (mainHarvest headless env max_tweets fuel).outcome = Outcome.ok posts →
        (mainHarvest headless env max_tweets fuel).closed = true) ∧
    (∀ e, e ≠ ScrapeErr.driverFault →
        (mainHarvest headless env max_tweets fuel).outcome = Outcome.err e →
        (mainHarvest headless env max_tweets fuel).closed = true) := by
  constructor
  · intro posts hok
    rw [mainHarvest_outcome] at hok
    exact mainHarvest_closed_ok _ _ _ _ _ hok
  · intro e hne herr
    rw [mainHarvest_outcome] at herr
    have hclosed := scrape_closed_unless_driverFault _ _ _ _ _ herr hne
    unfold mainHarvest
    simp only [herr]
    exact hclosed

theorem c2_witness :
    (mainHarvest true ⟨some "Log in to X / X", none, [qMixed]⟩ 5 5).closed = true :=
  (c2_release_on_nonfault_paths true ⟨some "Log in to X / X", none, [qMixed]⟩ 5 5).2
    ScrapeErr.loginRequired (by decide) (by decide)

/-- C1: evaluation at the failing input. With global cap 5, a single round
surfacing 20 readable cards is appended in full: the harvest returns 20
posts, exceeding `max_tweets` (the cap is only consulted before a round
begins, as the second query's 0 extraction rounds show). -/
theorem c1_cap_overshoot :
    (∃ posts, (scrape_tweets true envBigBatch 5 10).outcome = Outcome.ok posts ∧
        posts.length = 20) ∧
      (scrape_tweets true envBigBatch 5 10).statuses
        = [(1, QStatus.converged), (0, QStatus.capped)] := by
  refine ⟨⟨(List.range 20).map (fun i => ⟨"unknown", "pump signal", i⟩), ?_, ?_⟩, ?_⟩
  · decide
  · decide
  · decide
